import Mathlib

/-!
Shallow embedding of `chris-wood/challenge-bypass-server` (Go), file
`server/main.go`, together with models of the external `btd` / `crypto`
package functions it calls (those are not part of this repository's source;
they are modelled from the specification and marked as such).

Go byte strings are modelled as `List Nat`; the elliptic-curve group is
modelled by the toy prime-order-11 group from the specification (§8),
written additively as `ZMod 11`.
-/

namespace BTD

/-- Go `[]byte` values, one `Nat` per byte-like symbol. -/
abbrev Bytes := List Nat

/-- The bytes of a Go string (one symbol per character). -/
def strBytes (s : String) : Bytes := s.data.map Char.toNat

/-- Whether a symbol is a valid character codepoint (mirrors `Nat.isValidChar`). -/
def validCharNat (n : Nat) : Bool := n < 0xd800 || (0xe000 ≤ n && n < 0x110000)

/-- Partial inverse of `strBytes`: succeeds only on valid codepoints. -/
def bytesToStr (b : Bytes) : Option String :=
  if b.all validCharNat then some (String.mk (b.map Char.ofNat)) else none

/-- Length-prefixed field used by the modelled wire codec. -/
def encField (b : Bytes) : Bytes := b.length :: b

/-- Decode one length-prefixed field, returning the field and the rest. -/
def decField : Bytes → Option (Bytes × Bytes)
  | [] => none
  | n :: rest =>
      if n ≤ rest.length then some (rest.take n, rest.drop n) else none

/-- Length-prefixed encoding of a string field. -/
def encStr (s : String) : Bytes := encField (strBytes s)

/-! ## The toy group (spec §8): prime order 11, written additively. -/

/-- An elliptic-curve group element, modelled in the toy order-11 group of the
specification's concrete scenario (§8). -/
abbrev Point := ZMod 11

/-- Scalar multiplication `k·P` in the modelled group. -/
def scalarMult (k : Nat) (P : Point) : Point := (k : ZMod 11) * P

/-- Modelled from the spec: point decoding by the Group Arithmetic Provider
(external collaborator, §2); a marshaled point is a single in-range symbol. -/
def decodePoint : Bytes → Option Point
  | [x] => if x < 11 then some (x : ZMod 11) else none
  | _ => none

/-- Marshaling of a point, inverse of `decodePoint`. -/
def encodePoint (P : Point) : Bytes := [P.val]

/-- Modelled from the spec: the hash-to-curve primitive of the Group
Arithmetic Provider (§2, §4.3 step 1), abstracted as an executable digest. -/
def hashToCurve (t : Bytes) : Point := (t.sum : ZMod 11)

/-- Modelled from the spec: the key-derivation function of §4.3 step 2,
deriving a symmetric key from `(t, N)`. -/
def deriveKey (t : Bytes) (N : Point) : Bytes := [t.sum, N.val]

/-- Modelled from the spec: the message-authentication code of §4.3 step 2
over the binding context `(host, path)` under a derived key. -/
def mac (key : Bytes) (host path : String) : Bytes :=
  [key.sum + 2 * (strBytes host).sum + 3 * (strBytes path).sum]

/-- The tag a legitimate client computes for preimage `t` under key `k`
bound to `(host, path)` (spec §8, end-to-end round trip). -/
def clientTag (k : Nat) (t : Bytes) (host path : String) : Bytes :=
  mac (deriveKey t (scalarMult k (hashToCurve t))) host path

/-! ## Wire messages (the `btd` package types, modelled from the spec §6). -/

/-- Go `btd.ISSUE` discriminator value. -/
def ISSUE : String := "Issue"

/-- Go `btd.REDEEM` discriminator value. -/
def REDEEM : String := "Redeem"

/-- Modelled from the spec: `btd.BlindTokenRequest`, the inner request payload
carrying only a discriminator and opaque contents (a batch of marshaled
blinded points for Issue; a token preimage and a presented tag for Redeem).
It carries no host or path field. -/
structure BlindTokenRequest where
  type : String
  contents : List Bytes
deriving DecidableEq

/-- Modelled from the spec: `btd.BlindTokenRequestWrapper`, the envelope of §6
holding the raw inner request plus the server-observed binding fields. -/
structure BlindTokenRequestWrapper where
  request : Bytes
  host : String
  path : String
deriving DecidableEq

/-- Modelled from the spec: serialization of the inner request by the external
JSON codec, abstracted as an unambiguous length-prefixed encoding. -/
def encodeRequest (r : BlindTokenRequest) : Bytes :=
  encStr r.type ++ r.contents.length :: (r.contents.map encField).flatten

/-- Decode a run of `n` length-prefixed contents fields. -/
def decContents : Nat → Bytes → Option (List Bytes × Bytes)
  | 0, b => some ([], b)
  | n + 1, b => do
      let (x, b1) ← decField b
      let (xs, b2) ← decContents n b1
      pure (x :: xs, b2)

/-- Modelled from the spec: deserialization of the inner request by the
external JSON codec; succeeds only when the buffer is exactly one encoding. -/
def decodeRequest (b : Bytes) : Option BlindTokenRequest := do
  let (typeB, b1) ← decField b
  let type ← bytesToStr typeB
  match b1 with
  | [] => none
  | n :: rest => do
      let (cs, b2) ← decContents n rest
      if b2 = [] then pure ⟨type, cs⟩ else none

/-- Modelled from the spec: serialization of the envelope by the external
JSON codec. -/
def encodeWrapper (w : BlindTokenRequestWrapper) : Bytes :=
  encField w.request ++ encStr w.host ++ encStr w.path

/-- Modelled from the spec: deserialization of the envelope by the external
JSON codec; succeeds only when the buffer is exactly one encoding. -/
def decodeWrapper (b : Bytes) : Option BlindTokenRequestWrapper := do
  let (req, b1) ← decField b
  let (hostB, b2) ← decField b1
  let (pathB, b3) ← decField b2
  let host ← bytesToStr hostB
  let path ← bytesToStr pathB
  if b3 = [] then pure ⟨req, host, path⟩ else none

/-! ## Errors (`server/main.go` error values plus the spec's taxonomy §7). -/

/-- The error values of `server/main.go` together with the per-request error
taxonomy of the spec (§7) for the modelled `btd`/`crypto` calls. -/
inductive Err
  | emptyKeyPath
  | noSecretKey
  | requestTooLarge
  | unrecognizedRequest
  | emptyCommPath
  | jsonError (what : String)
  | invalidUnmarshal
  | readFileError
  | keyLoadError
  | commParseError
  | commitmentMismatch
  | transport (msg : String)
  | emptyBatch
  | batchSizeExceeded
  | invalidPoint
  | protocolDecode (what : String)
  | verifyFailed
deriving DecidableEq

/-- The Go `Error()` text of each error value; the `server/main.go` values
carry their literal source strings, the modelled ones their spec names. -/
def errMsg : Err → String
  | .emptyKeyPath => "key file path is empty"
  | .noSecretKey => "server config does not contain a key"
  | .requestTooLarge => "request too large to process"
  | .unrecognizedRequest => "received unrecognized request type"
  | .emptyCommPath => "no commitment file path specified"
  | .jsonError what => "json: cannot unmarshal " ++ what
  | .invalidUnmarshal => "json: Unmarshal(non-pointer main.Server)"
  | .readFileError => "no such file or directory"
  | .keyLoadError => "KeyLoadError"
  | .commParseError => "CommitmentParseError"
  | .commitmentMismatch => "CommitmentMismatch"
  | .transport msg => msg
  | .emptyBatch => "EmptyBatch"
  | .batchSizeExceeded => "BatchSizeExceeded"
  | .invalidPoint => "InvalidPoint"
  | .protocolDecode what => "ProtocolDecodeError: " ++ what
  | .verifyFailed => "VerifyFailed"

/-! ## The `Server` configuration object (`server/main.go`, lines 36–54). -/

/-- `server/main.go` `type Server struct`: the JSON-tagged configuration
fields plus the unexported key material. Go `int` is modelled as `Int`;
the nilable `*crypto.Point` fields as `Option Point`. -/
structure Server where
  bindAddress : String
  listenPort : Int
  metricsPort : Int
  maxTokens : Int
  keyFilePath : String
  commFilePath : String
  keys : List Nat
  G : Option Point
  H : Option Point
deriving DecidableEq

/-- `server/main.go` `DefaultServer` (lines 49–54). -/
def DefaultServer : Server :=
  { bindAddress := "127.0.0.1"
    listenPort := 2416
    metricsPort := 2417
    maxTokens := 100
    keyFilePath := ""
    commFilePath := ""
    keys := []
    G := none
    H := none }

/-- `server/main.go` `maxRequestSize` (line 24): `int64(20 * 1024)`. -/
def maxRequestSize : Nat := 20 * 1024

/-! ## The connection and the read step (`handle`, lines 74–88). -/

/-- What the peer does after the bytes it sent are exhausted: closes its write
side (`eof`), stays silent until the read deadline fires (`stillOpen`), or
breaks the connection with some other transport error. -/
inductive ConnState
  | eof
  | stillOpen
  | broken (msg : String)
deriving DecidableEq

/-- An inbound TCP connection: the bytes the peer sends and what happens
after them. -/
structure Conn where
  pending : Bytes
  state : ConnState
deriving DecidableEq

/-- The error outcomes of `io.Copy` over the deadline-limited connection. -/
inductive ReadErr
  | timeout
  | other (msg : String)
deriving DecidableEq

/-- The read of `handle` (lines 76–79): `io.Copy` through
`io.LimitReader(conn, maxRequestSize)` under a 100 ms read deadline.
The limit reader yields end-of-input (no error) once `maxRequestSize` bytes
have been copied; below the limit the copy ends with the peer's close (no
error), with an `i/o timeout` at the deadline, or with a transport error. -/
def readRequest (conn : Conn) : Bytes × Option ReadErr :=
  if conn.pending.length ≥ maxRequestSize then
    (conn.pending.take maxRequestSize, none)
  else
    match conn.state with
    | .eof => (conn.pending, none)
    | .stillOpen => (conn.pending, some .timeout)
    | .broken msg => (conn.pending, some (.other msg))

/-- The Go text of a read error, as `net.OpError.Err.Error()` would show it. -/
def readErrMsg : ReadErr → String
  | .timeout => "i/o timeout"
  | .other msg => msg

/-! ## Issuance (`btd.HandleIssue`, modelled from the spec §4.1–§4.2). -/

/-- Modelled from the spec: the batched DLEQ proof object of §4.2, a random
commitment pair and a response scalar. -/
structure DLEQProof where
  A : Point
  B : Point
  s : ZMod 11
deriving DecidableEq

/-- Modelled from the spec: the DLEQ Batch Proof Engine's prover (§4.2); the
Fiat–Shamir hashes and the fresh nonce are abstracted as executable
deterministic digests of the transcript. -/
def batchProof (key : Nat) (G H : Point) (ms zs : List Point) : DLEQProof :=
  let transcript := G.val :: H.val :: (ms.map ZMod.val ++ zs.map ZMod.val)
  let c : Nat → Nat := fun i => transcript.sum + i + 1
  let mStar := ((List.range ms.length).map
    (fun i => scalarMult (c i) (ms.getD i 0))).sum
  let zStar := ((List.range zs.length).map
    (fun i => scalarMult (c i) (zs.getD i 0))).sum
  let r := transcript.sum + 7
  let A := scalarMult r G
  let B := scalarMult r mStar
  let e := G.val + H.val + mStar.val + zStar.val + A.val + B.val
  { A := A, B := B, s := (r : ZMod 11) + (e : ZMod 11) * (key : ZMod 11) }

/-- Modelled from the spec: network-received points must decode and be
non-identity group elements before any arithmetic (§3 invariant (d)). -/
def decodePoints : List Bytes → Option (List Point)
  | [] => some []
  | b :: rest =>
      match decodePoint b with
      | none => none
      | some p =>
          if p = 0 then none
          else (decodePoints rest).map (fun ps => p :: ps)

/-- Modelled from the spec: `btd.HandleIssue`'s cryptographic core, the Batch
Blind Evaluator (§4.1): validate the batch, evaluate `Zᵢ = k·Mᵢ` under the
given key, and attach one batch proof. -/
def handleIssue (req : BlindTokenRequest) (key : Nat) (G H : Option Point)
    (maxTokens : Int) : Except Err (List Point × DLEQProof) :=
  if req.contents.length = 0 then .error .emptyBatch
  else if (req.contents.length : Int) > maxTokens then .error .batchSizeExceeded
  else
    match decodePoints req.contents with
    | none => .error .invalidPoint
    | some ms =>
        let zs := ms.map (scalarMult key)
        .ok (zs, batchProof key (G.getD 1) (H.getD 1) ms zs)

/-- Modelled marshaling of the issue response written back to the client. -/
def encodeIssueResponse (resp : List Point × DLEQProof) : Bytes :=
  (resp.1.map encodePoint).flatten ++ [resp.2.A.val, resp.2.B.val, resp.2.s.val]

/-! ## Redemption (`btd.HandleRedeem`, modelled from the spec §4.3). -/

/-- Modelled from the spec: `btd.HandleRedeem`'s cryptographic core, the
Redemption Verifier (§4.3): hash the preimage to a point, and for each
configured key in order derive the tag over the binding context and compare;
the first match succeeds, otherwise `VerifyFailed`. -/
def handleRedeem (req : BlindTokenRequest) (host path : String)
    (keys : List Nat) : Except Err Unit :=
  match req.contents with
  | [t, tag] =>
      if keys.any
        (fun k => tag = mac (deriveKey t (scalarMult k (hashToCurve t))) host path)
      then .ok ()
      else .error .verifyFailed
  | _ => .error (.protocolDecode "redemption request contents")

/-! ## The per-connection handler (`server/main.go` `handle`, lines 70–128). -/

/-- What one call of `handle` does besides returning: the metrics counters it
increments and the payloads it writes to the connection, in order. -/
structure HandleOutput where
  counters : List String
  written : List Bytes
  result : Option Err
deriving DecidableEq

/-- The body of `handle` after a successful read (lines 90–127): unmarshal
the envelope, unmarshal the inner request, and dispatch on `request.Type`.
The `success` write on a successful redemption happens inside the modelled
`btd.HandleRedeem`. -/
def processRequest (c : Server) (buf : Bytes) : Server × HandleOutput :=
  match decodeWrapper buf with
  | none => (c, ⟨["CounterJsonError"], [], some (.jsonError "wrapper")⟩)
  | some wrapped =>
      match decodeRequest wrapped.request with
      | none => (c, ⟨["CounterJsonError"], [], some (.jsonError "request")⟩)
      | some request =>
          if request.type = ISSUE then
            -- Go: `c.keys[0]`; indexing an empty slice panics in Go, but
            -- `ListenAndServe` refuses to start with no keys
            -- (`ErrNoSecretKey`), so the `headD` default is unreachable in
            -- served traffic.
            match handleIssue request (c.keys.headD 0) c.G c.H c.maxTokens with
            | .error e =>
                (c, ⟨["CounterIssueTotal", "CounterIssueError"], [], some e⟩)
            | .ok resp =>
                (c, ⟨["CounterIssueTotal"], [encodeIssueResponse resp], none⟩)
          else if request.type = REDEEM then
            match handleRedeem request wrapped.host wrapped.path c.keys with
            | .error e =>
                (c, ⟨["CounterRedeemTotal", "CounterRedeemError"],
                  [strBytes (errMsg e)], some e⟩)
            | .ok _ =>
                (c, ⟨["CounterRedeemTotal"], [strBytes "success"], none⟩)
          else
            (c, ⟨["CounterUnknownRequestType"], [], some .unrecognizedRequest⟩)

/-- `server/main.go` `handle` (lines 70–128): count the connection, read the
request under the deadline and the size limit, tolerate an `i/o timeout`
when at least one byte arrived, then process the buffer. -/
def handle (c : Server) (conn : Conn) : Server × HandleOutput :=
  let r := readRequest conn
  match r.2 with
  | none =>
      ((processRequest c r.1).1,
        { (processRequest c r.1).2 with
          counters := "CounterConnections" :: (processRequest c r.1).2.counters })
  | some e =>
      if e = ReadErr.timeout ∧ r.1.length > 0 then
        -- then probably we just hit the read deadline, so try to unwrap anyway
        ((processRequest c r.1).1,
          { (processRequest c r.1).2 with
            counters := "CounterConnections" :: (processRequest c r.1).2.counters })
      else
        (c, ⟨["CounterConnections", "CounterConnErrors"], [],
          some (.transport (readErrMsg e))⟩)

/-! ## The process environment: files the startup code reads. -/

/-- The file system as startup sees it: raw bytes for `ioutil.ReadFile`, and
the already-parsed views of key and commitment files (their on-disk formats
belong to the external `crypto` package; a `none` entry is a file that is
missing or unparsable). -/
structure World where
  rawFiles : String → Option Bytes
  keyFiles : String → Option (List String × List Nat)
  commFiles : String → Option (Bytes × Bytes)

/-- Modelled from the spec: `crypto.ParseKeyFile` — a key file holds one or
more scalars with their curve identifiers, fatal-on-error if missing, empty
or unparsable (§6). -/
def parseKeyFile (w : World) (path : String) :
    Except Err (List String × List Nat) :=
  match w.keyFiles path with
  | none => .error .keyLoadError
  | some (curves, ks) =>
      if ks.isEmpty then .error .keyLoadError else .ok (curves, ks)

/-- Modelled from the spec: `crypto.ParseCommitmentFile` — a commitment file
holds the two public points, fatal-on-error if missing or unparsable (§6). -/
def parseCommitmentFile (w : World) (path : String) :
    Except Err (Bytes × Bytes) :=
  match w.commFiles path with
  | none => .error .commParseError
  | some gh => .ok gh

/-- Modelled from the spec: `crypto.RetrieveCommPoints`, the Commitment
Consistency Checker (§4.4) — decode the two points and verify `H = k₀·G`,
failing with `CommitmentMismatch` otherwise. -/
def retrieveCommPoints (gBytes hBytes : Bytes) (k0 : Nat) :
    Except Err (Point × Point) :=
  match decodePoint gBytes, decodePoint hBytes with
  | some g, some h =>
      if h = scalarMult k0 g then .ok (g, h) else .error .commitmentMismatch
  | _, _ => .error .commParseError

/-- `server/main.go` `loadKeys` (lines 131–145): check the two paths, parse
the key file, store the keys. -/
def loadKeys (c : Server) (w : World) : Server × Option Err :=
  if c.keyFilePath = "" then (c, some .emptyKeyPath)
  else if c.commFilePath = "" then (c, some .emptyCommPath)
  else
    match parseKeyFile w c.keyFilePath with
    | .error e => (c, some e)
    | .ok (_, ks) => ({ c with keys := ks }, none)

/-! ## The config file (`loadConfigFile`, lines 56–67) and Go's JSON codec. -/

/-- The JSON-visible content of a config file: each tagged `Server` field,
present or absent. -/
structure ConfigPatch where
  bindAddress : Option String
  listenPort : Option Int
  metricsPort : Option Int
  maxTokens : Option Int
  keyFilePath : Option String
  commFilePath : Option String
deriving DecidableEq

/-- The all-absent config patch. -/
def emptyPatch : ConfigPatch := ⟨none, none, none, none, none, none⟩

/-- Apply a decoded config patch over a base `Server`, as Go's JSON decoding
into a struct would: present fields override, absent and unexported fields
keep the base value. -/
def applyPatch (p : ConfigPatch) (s : Server) : Server :=
  { s with
    bindAddress := p.bindAddress.getD s.bindAddress
    listenPort := p.listenPort.getD s.listenPort
    metricsPort := p.metricsPort.getD s.metricsPort
    maxTokens := p.maxTokens.getD s.maxTokens
    keyFilePath := p.keyFilePath.getD s.keyFilePath
    commFilePath := p.commFilePath.getD s.commFilePath }

/-- Sign-and-magnitude encoding of a Go `int` in the modelled codec. -/
def encInt (i : Int) : Bytes := [if i < 0 then 1 else 0, i.natAbs]

/-- Modelled option-field encoding: `0` for absent, `1` then the field. -/
def encOpt (enc : α → Bytes) : Option α → Bytes
  | none => [0]
  | some a => 1 :: enc a

/-- Modelled from the spec: the JSON bytes of a config file. -/
def encodeConfigPatch (p : ConfigPatch) : Bytes :=
  encOpt encStr p.bindAddress ++ encOpt encInt p.listenPort ++
  encOpt encInt p.metricsPort ++ encOpt encInt p.maxTokens ++
  encOpt encStr p.keyFilePath ++ encOpt encStr p.commFilePath

/-- Decode one modelled option field. -/
def decOpt (dec : Bytes → Option (α × Bytes)) :
    Bytes → Option (Option α × Bytes)
  | [] => none
  | 0 :: rest => some (none, rest)
  | 1 :: rest => do
      let (a, b) ← dec rest
      pure (some a, b)
  | _ => none

/-- Decode a sign-and-magnitude integer. -/
def decInt : Bytes → Option (Int × Bytes)
  | 0 :: m :: rest => some ((m : Int), rest)
  | 1 :: m :: rest => some (-(m : Int), rest)
  | _ => none

/-- Decode a length-prefixed string. -/
def decStr (b : Bytes) : Option (String × Bytes) := do
  let (f, rest) ← decField b
  let s ← bytesToStr f
  pure (s, rest)

/-- Modelled from the spec: parsing the JSON bytes of a config file. -/
def decodeConfigPatch (b : Bytes) : Option ConfigPatch := do
  let (ba, b1) ← decOpt decStr b
  let (lp, b2) ← decOpt decInt b1
  let (mp, b3) ← decOpt decInt b2
  let (mt, b4) ← decOpt decInt b3
  let (kf, b5) ← decOpt decStr b4
  let (cf, b6) ← decOpt decStr b5
  if b6 = [] then pure ⟨ba, lp, mp, mt, kf, cf⟩ else none

/-- A Go `json.Unmarshal` target: either a pointer to a `Server` variable
(`&conf`) or a `Server` passed by value (`conf`). -/
inductive JsonTarget
  | ptr (s : Server)
  | val (s : Server)

/-- Modelled from the Go standard library (external to this repository):
`json.Unmarshal` requires a non-nil pointer target; handed a non-pointer
value it returns `InvalidUnmarshalError` and decodes nothing. Through a
pointer it merges the file's present fields over the target's value. -/
def jsonUnmarshalServer (data : Bytes) : JsonTarget → Server × Option Err
  | .val s => (s, some .invalidUnmarshal)
  | .ptr s =>
      match decodeConfigPatch data with
      | none => (s, some (.jsonError "config"))
      | some p => (applyPatch p s, none)

/-- `server/main.go` `loadConfigFile` (lines 56–67): start from
`*DefaultServer`, read the file, and call `json.Unmarshal(data, conf)` —
note the source passes `conf` by value, not `&conf`. -/
def loadConfigFile (w : World) (filePath : String) : Server × Option Err :=
  let conf := DefaultServer
  match w.rawFiles filePath with
  | none => (conf, some .readFileError)
  | some data => jsonUnmarshalServer data (.val conf)

/-! ## The accept loop (`ListenAndServe`, lines 147–212) and `main`. -/

/-- One iteration's input to the accept loop: a connection, or an
`AcceptTCP` error (temporary errors trigger backoff; both are counted and
sent to the error channel). -/
inductive AcceptEvent
  | accepted (conn : Conn)
  | acceptError (temporary : Bool) (msg : String)

/-- What the error-channel logger receives for one accept-loop iteration. -/
def stepEvent (c : Server) : AcceptEvent → Option Err
  | .accepted conn => (handle c conn).2.result
  | .acceptError _ msg => some (.transport msg)

/-- The `for` loop of `ListenAndServe` (lines 185–211) over a finite trace of
accept events: every accept error is counted and logged and the loop
continues; every accepted connection is handled (the returned error goes to
the error channel, the connection is closed) with the server state threaded
on to the next iteration. Backoff delays only affect timing and are not
modelled. -/
def acceptLoop (c : Server) : List AcceptEvent → List (Option Err)
  | [] => []
  | .acceptError _ msg :: rest =>
      some (.transport msg) :: acceptLoop c rest
  | .accepted conn :: rest =>
      let r := handle c conn
      r.2.result :: acceptLoop r.1 rest

/-- `server/main.go` `ListenAndServe` (lines 147–212): refuse to serve
without a key, then run the accept loop; the returned list is the error
channel's view of the trace. Address resolution and socket errors of the
local listener are not modelled. -/
def listenAndServe (c : Server) (events : List AcceptEvent) :
    Except Err (List (Option Err)) :=
  if c.keys.length = 0 then .error .noSecretKey
  else .ok (acceptLoop c events)

/-- The command-line flags of `main` (lines 219–225), with their defaults. -/
structure Flags where
  configFile : String
  addr : String
  keyPath : String
  commPath : String
  port : Int
  metricsPort : Int
  maxTokens : Int

/-- The `Server` populated from the flags (lines 217–226): `srv` starts as
`*DefaultServer` and the flag variables point into its fields. -/
def flagServer (fl : Flags) : Server :=
  { DefaultServer with
    bindAddress := fl.addr
    keyFilePath := fl.keyPath
    commFilePath := fl.commPath
    listenPort := fl.port
    metricsPort := fl.metricsPort
    maxTokens := fl.maxTokens }

/-- How a run of `main` ends: usage text (no serving), a fatal error via
`errLog.Fatal` (no serving), or serving traffic with the final startup
`Server` and the accept-loop log. -/
inductive MainResult
  | usage
  | fatal (e : Err)
  | served (srv : Server) (log : List (Option Err))
deriving DecidableEq

/-- `main` after the config/usage decision (lines 241–266): `loadKeys`, parse
the commitment file, retrieve and check the commitment points, then
`ListenAndServe`; every error is fatal. -/
def startServer (srv : Server) (w : World) (events : List AcceptEvent) :
    MainResult :=
  match loadKeys srv w with
  | (_, some e) => .fatal e
  | (srv1, none) =>
      match parseCommitmentFile w srv1.commFilePath with
      | .error e => .fatal e
      | .ok (gBytes, hBytes) =>
          -- Go: `srv.keys[0]` (line 255); see the note at `processRequest`.
          match retrieveCommPoints gBytes hBytes (srv1.keys.headD 0) with
          | .error e => .fatal e
          | .ok (g, h) =>
              let srv2 := { srv1 with G := some g, H := some h }
              match listenAndServe srv2 events with
              | .error e => .fatal e
              | .ok log => .served srv2 log

/-- `server/main.go` `main` (lines 214–267): populate `srv` from the flags;
if `-config` is given, replace it by `loadConfigFile`'s result (fatal on
error); otherwise print usage when the key or commitment path is missing;
then start the server. -/
def main (fl : Flags) (w : World) (events : List AcceptEvent) : MainResult :=
  let srv := flagServer fl
  if fl.configFile ≠ "" then
    match loadConfigFile w fl.configFile with
    | (_, some e) => .fatal e
    | (srv2, none) => startServer srv2 w events
  else if fl.keyPath = "" ∨ fl.commPath = "" then .usage
  else startServer srv w events

/-- Modelled from the spec: the invoking layer's reading of a redemption
response (§6) — any payload other than the canonical `success` marker is a
verification failure. -/
def callerAccepts (payload : Bytes) : Bool :=
  payload = strBytes "success"

/-! ## Concrete instances used to evaluate the embedding. -/

/-- A token preimage sized so that the whole redemption message is exactly
`maxRequestSize` symbols long. -/
def oversizedPreimage : Bytes := List.replicate 20464 0

/-- The legitimate client tag for `oversizedPreimage` under key `7`, bound to
host `h` and path `p`. -/
def oversizedTag : Bytes := [544]

/-- The inner redemption request of the oversized message. -/
def oversizedRequest : BlindTokenRequest :=
  ⟨"Redeem", [oversizedPreimage, oversizedTag]⟩

/-- The envelope of the oversized message. -/
def oversizedWrapper : BlindTokenRequestWrapper :=
  ⟨encodeRequest oversizedRequest, "h", "p"⟩

/-- A connection whose inbound message is one symbol longer than
`maxRequestSize`: a full valid redemption message followed by one extra
trailing symbol. -/
def oversizedConn : Conn := ⟨encodeWrapper oversizedWrapper ++ [0], .eof⟩

/-- A served configuration with primary key `7` and commitment `H = 7·G`. -/
def oversizedServer : Server :=
  { DefaultServer with
    keys := [7], keyFilePath := "k", commFilePath := "c",
    G := some 1, H := some 7 }

/-- The JSON bytes of a config file that sets `listen_port` to `9000`. -/
def configBytes : Bytes :=
  encodeConfigPatch ⟨none, some 9000, none, none, none, none⟩

/-- A file system holding exactly that config file at `conf.json`. -/
def configWorld : World :=
  ⟨fun p => if p = "conf.json" then some configBytes else none,
   fun _ => none, fun _ => none⟩

/-- A command line passing `-config conf.json` and nothing else. -/
def configFlags : Flags :=
  ⟨"conf.json", "127.0.0.1", "", "", 2416, 2417, 100⟩

/-- A consistent startup environment: key file `k` with scalars `7, 5`,
commitment file `c` with points `G = 1`, `H = 7 = 7·1`. -/
def goodWorld : World :=
  ⟨fun _ => none,
   fun p => if p = "k" then some (["p256"], [7, 5]) else none,
   fun p => if p = "c" then some ([1], [7]) else none⟩

/-- A command line naming the key file `k` and the commitment file `c`. -/
def goodFlags : Flags := ⟨"", "127.0.0.1", "k", "c", 2416, 2417, 100⟩

/-! ## Codec roundtrip lemmas -/

theorem validCharNat_toNat (c : Char) : validCharNat c.toNat = true := by
  have h := c.valid
  rcases h with h | ⟨h1, h2⟩
  · simp [validCharNat, Char.toNat]
    omega
  · simp [validCharNat, Char.toNat]
    omega

theorem bytesToStr_strBytes (s : String) : bytesToStr (strBytes s) = some s := by
  have hall : (strBytes s).all validCharNat = true := by
    simp only [List.all_eq_true]
    intro x hx
    simp only [strBytes, List.mem_map] at hx
    obtain ⟨c, _, rfl⟩ := hx
    exact validCharNat_toNat c
  obtain ⟨d⟩ := s
  have hcomp : (Char.ofNat ∘ Char.toNat) = (id : Char → Char) := by
    funext c
    simp [Function.comp, Char.ofNat_toNat]
  simp only [strBytes] at hall
  simp only [bytesToStr, strBytes]
  rw [if_pos hall, List.map_map, hcomp, List.map_id]

theorem decField_encField (b t : Bytes) :
    decField (encField b ++ t) = some (b, t) := by
  simp only [encField, List.cons_append, decField]
  rw [if_pos]
  · rw [List.take_left, List.drop_left]
  · simp

theorem decField_encField_nil (b : Bytes) : decField (encField b) = some (b, []) := by
  have h := decField_encField b []
  simpa using h

theorem decContents_encode (cs : List Bytes) (t : Bytes) :
    decContents cs.length ((cs.map encField).flatten ++ t) = some (cs, t) := by
  induction cs generalizing t with
  | nil => simp [decContents]
  | cons c rest ih =>
      simp only [List.length_cons, List.map_cons, List.flatten_cons,
        List.append_assoc, decContents]
      rw [decField_encField]
      simp only [Option.bind_eq_bind, Option.some_bind]
      rw [ih]
      rfl

theorem decodeRequest_encodeRequest (r : BlindTokenRequest) :
    decodeRequest (encodeRequest r) = some r := by
  obtain ⟨ty, cs⟩ := r
  simp only [decodeRequest, encodeRequest, encStr, List.append_assoc,
    List.cons_append]
  rw [decField_encField]
  simp only [Option.bind_eq_bind, Option.some_bind, bytesToStr_strBytes]
  have hc := decContents_encode cs []
  rw [List.append_nil] at hc
  rw [hc]
  simp

theorem decodeWrapper_encodeWrapper (w : BlindTokenRequestWrapper) :
    decodeWrapper (encodeWrapper w) = some w := by
  obtain ⟨req, host, path⟩ := w
  simp only [decodeWrapper, encodeWrapper, encStr, List.append_assoc]
  rw [decField_encField]
  simp only [Option.bind_eq_bind, Option.some_bind]
  rw [decField_encField]
  simp only [Option.some_bind]
  rw [decField_encField_nil]
  simp only [Option.some_bind, bytesToStr_strBytes]
  simp

/-! ## Structural lemmas about the handler and the accept loop. -/

theorem processRequest_fst (c : Server) (buf : Bytes) :
    (processRequest c buf).1 = c := by
  unfold processRequest
  repeat' split
  all_goals rfl

theorem handle_fst (c : Server) (conn : Conn) : (handle c conn).1 = c := by
  simp only [handle]
  repeat' split
  all_goals first | rfl | apply processRequest_fst

theorem handle_read_ok (c : Server) (conn : Conn)
    (h : (readRequest conn).2 = none ∨
      ((readRequest conn).2 = some ReadErr.timeout ∧
        0 < (readRequest conn).1.length)) :
    handle c conn =
      ((processRequest c (readRequest conn).1).1,
        { (processRequest c (readRequest conn).1).2 with
          counters :=
            "CounterConnections" ::
              (processRequest c (readRequest conn).1).2.counters }) := by
  simp only [handle]
  rcases h with h | ⟨h1, h2⟩
  · rw [h]
  · simp only [h1]
    rw [if_pos ⟨trivial, h2⟩]

theorem processRequest_redeem (c : Server) (buf : Bytes)
    (w : BlindTokenRequestWrapper) (req : BlindTokenRequest)
    (hw : decodeWrapper buf = some w) (hr : decodeRequest w.request = some req)
    (ht : req.type = REDEEM) :
    (processRequest c buf).2 =
      match handleRedeem req w.host w.path c.keys with
      | .error e => ⟨["CounterRedeemTotal", "CounterRedeemError"],
          [strBytes (errMsg e)], some e⟩
      | .ok _ => ⟨["CounterRedeemTotal"], [strBytes "success"], none⟩ := by
  simp only [processRequest, hw, hr, ht]
  simp only [if_true]
  rw [if_neg (by decide : ¬(REDEEM = ISSUE))]
  cases handleRedeem req w.host w.path c.keys <;> rfl

theorem processRequest_issue (c : Server) (buf : Bytes)
    (w : BlindTokenRequestWrapper) (req : BlindTokenRequest)
    (hw : decodeWrapper buf = some w) (hr : decodeRequest w.request = some req)
    (ht : req.type = ISSUE) :
    (processRequest c buf).2 =
      match handleIssue req (c.keys.headD 0) c.G c.H c.maxTokens with
      | .error e => ⟨["CounterIssueTotal", "CounterIssueError"], [], some e⟩
      | .ok resp =>
          ⟨["CounterIssueTotal"], [encodeIssueResponse resp], none⟩ := by
  simp only [processRequest, hw, hr, ht]
  simp only [if_true]
  cases handleIssue req (c.keys.headD 0) c.G c.H c.maxTokens <;> rfl

theorem acceptLoop_eq_map (c : Server) (evs : List AcceptEvent) :
    acceptLoop c evs = evs.map (stepEvent c) := by
  induction evs with
  | nil => rfl
  | cons ev rest ih =>
      cases ev with
      | acceptError t msg => simp [acceptLoop, stepEvent, ih]
      | accepted conn => simp [acceptLoop, stepEvent, handle_fst, ih]

theorem handleRedeem_error_cases (req : BlindTokenRequest) (host path : String)
    (keys : List Nat) (e : Err)
    (h : handleRedeem req host path keys = .error e) :
    e = .verifyFailed ∨ e = .protocolDecode "redemption request contents" := by
  unfold handleRedeem at h
  split at h
  · split at h
    · exact absurd h (by simp)
    · left
      simpa using h.symm
  · right
    simpa using h.symm

theorem handleIssue_error_cases (req : BlindTokenRequest) (key : Nat)
    (G H : Option Point) (maxTokens : Int) (e : Err)
    (h : handleIssue req key G H maxTokens = .error e) :
    e = .emptyBatch ∨ e = .batchSizeExceeded ∨ e = .invalidPoint := by
  unfold handleIssue at h
  split at h
  · left
    simpa using h.symm
  · split at h
    · right; left
      simpa using h.symm
    · split at h
      · right; right
        simpa using h.symm
      · exact absurd h (by simp)

theorem processRequest_result_ne_tooLarge (c : Server) (buf : Bytes) :
    (processRequest c buf).2.result ≠ some Err.requestTooLarge := by
  unfold processRequest
  split
  · simp
  · split
    · simp
    · split
      · split
        · rename_i e heq
          rcases handleIssue_error_cases _ _ _ _ _ _ heq with h | h | h <;>
            subst h <;> simp
        · simp
      · split
        · split
          · rename_i e heq
            rcases handleRedeem_error_cases _ _ _ _ _ heq with h | h <;>
              subst h <;> simp
          · simp
        · simp

theorem handle_result_ne_tooLarge (c : Server) (conn : Conn) :
    (handle c conn).2.result ≠ some Err.requestTooLarge := by
  simp only [handle]
  split
  · exact processRequest_result_ne_tooLarge c _
  · split
    · exact processRequest_result_ne_tooLarge c _
    · simp

/-! ## Claim theorems. -/

/-- C9: handling a request leaves the server's key material and configuration
unchanged — every field of the `Server` has the same value after `handle`
returns as before it was called. -/
theorem handle_preserves_server_state (c : Server) (conn : Conn) :
    (handle c conn).1 = c :=
  handle_fst c conn

/-- C6: once serving has started, every accept-loop event — connection handled
with an error, decode failure, redemption failure, accept error — is recovered
at the connection boundary: its error is delivered to the error channel and
the loop goes on to handle every remaining event; no per-request error
terminates the listening process. -/
theorem accept_loop_survives_request_errors (c : Server)
    (evs : List AcceptEvent) (h : c.keys ≠ []) :
    listenAndServe c evs = .ok (evs.map (stepEvent c)) ∧
    (evs.map (stepEvent c)).length = evs.length := by
  constructor
  · unfold listenAndServe
    rw [if_neg (by simpa using h)]
    rw [acceptLoop_eq_map]
  · exact List.length_map _ _

theorem accept_loop_survives_request_errors_witness :
    ({ DefaultServer with keys := [7] } : Server).keys ≠ [] ∧
    listenAndServe { DefaultServer with keys := [7] }
        [AcceptEvent.acceptError true "reset",
         AcceptEvent.accepted ⟨[], ConnState.eof⟩] =
      .ok ([AcceptEvent.acceptError true "reset",
            AcceptEvent.accepted ⟨[], ConnState.eof⟩].map
        (stepEvent { DefaultServer with keys := [7] })) :=
  ⟨by decide,
    (accept_loop_survives_request_errors { DefaultServer with keys := [7] }
      [AcceptEvent.acceptError true "reset",
       AcceptEvent.accepted ⟨[], ConnState.eof⟩] (by decide)).1⟩

/-- C10: a read that ends in an `i/o timeout` after at least one byte arrived
is not treated as a transport failure: `handle` decodes and processes the
partial buffer exactly as if the peer had closed the connection normally; a
timeout with an empty buffer is returned as a counted transport error. -/
theorem timeout_partial_read_processed :
    (∀ (c : Server) (p : Bytes), p ≠ [] →
      handle c ⟨p, .stillOpen⟩ = handle c ⟨p, .eof⟩) ∧
    (∀ c : Server, handle c ⟨[], .stillOpen⟩ =
      (c, ⟨["CounterConnections", "CounterConnErrors"], [],
        some (.transport "i/o timeout")⟩)) := by
  constructor
  · intro c p hp
    by_cases hlen : p.length ≥ maxRequestSize
    · have hsame : readRequest ⟨p, .stillOpen⟩ = readRequest ⟨p, .eof⟩ := by
        unfold readRequest
        rw [if_pos hlen, if_pos hlen]
      simp only [handle, hsame]
    · have h1 : readRequest ⟨p, .stillOpen⟩ = (p, some .timeout) := by
        unfold readRequest
        rw [if_neg hlen]
      have h2 : readRequest ⟨p, .eof⟩ = (p, none) := by
        unfold readRequest
        rw [if_neg hlen]
      rw [handle_read_ok c _ (Or.inr ⟨by rw [h1], by
            rw [h1]
            exact List.length_pos.mpr hp⟩),
          handle_read_ok c _ (Or.inl (by rw [h2]))]
      rw [h1, h2]
  · intro c
    have h1 : readRequest ⟨([] : Bytes), .stillOpen⟩ = ([], some .timeout) := by
      unfold readRequest
      rw [if_neg (by simp [maxRequestSize])]
    simp only [handle, h1]
    rw [if_neg (by simp)]
    rfl

theorem timeout_partial_read_processed_witness :
    ([5] : Bytes) ≠ [] ∧
    handle DefaultServer ⟨[5], .stillOpen⟩ = handle DefaultServer ⟨[5], .eof⟩ :=
  ⟨by decide, timeout_partial_read_processed.1 DefaultServer [5] (by decide)⟩

/-- C1: for every redemption request, the binding context handed to the
redemption verifier is the envelope's server-observed `Host` and `Path`
fields, and the verifier outcome — with those bindings and the full key
list — fully determines the handler's output; the client-supplied inner
request body carries no binding fields and contributes only the token
preimage and tag. -/
theorem redeem_binding_context_from_envelope
    (c : Server) (conn : Conn) (w : BlindTokenRequestWrapper)
    (req : BlindTokenRequest)
    (hread : (readRequest conn).2 = none ∨
      ((readRequest conn).2 = some ReadErr.timeout ∧
        0 < (readRequest conn).1.length))
    (hw : decodeWrapper ((readRequest conn).1) = some w)
    (hr : decodeRequest w.request = some req)
    (ht : req.type = REDEEM) :
    (handle c conn).2 =
      match handleRedeem req w.host w.path c.keys with
      | .error e =>
          ⟨["CounterConnections", "CounterRedeemTotal", "CounterRedeemError"],
            [strBytes (errMsg e)], some e⟩
      | .ok _ =>
          ⟨["CounterConnections", "CounterRedeemTotal"],
            [strBytes "success"], none⟩ := by
  rw [handle_read_ok c conn hread]
  rw [processRequest_redeem c _ w req hw hr ht]
  cases handleRedeem req w.host w.path c.keys <;> rfl

theorem redeem_binding_context_from_envelope_witness :
    (handle { DefaultServer with keys := [7] }
        ⟨encodeWrapper ⟨encodeRequest ⟨"Redeem", [[3], [557]]⟩, "h", "p"⟩,
          ConnState.eof⟩).2 =
      ⟨["CounterConnections", "CounterRedeemTotal"],
        [strBytes "success"], none⟩ := by
  have h := redeem_binding_context_from_envelope
    { DefaultServer with keys := [7] }
    ⟨encodeWrapper ⟨encodeRequest ⟨"Redeem", [[3], [557]]⟩, "h", "p"⟩,
      ConnState.eof⟩
    ⟨encodeRequest ⟨"Redeem", [[3], [557]]⟩, "h", "p"⟩
    ⟨"Redeem", [[3], [557]]⟩
    (Or.inl (by decide)) (by decide) (by decide) rfl
  rw [h]
  decide

/-- C2: for every issuance request, the handler evaluates the batch using the
key at index 0 of the configured key sequence — the primary signing key — and
no other key influences the issuance outcome: any key list with the same head
produces the identical handler output. -/
theorem issue_uses_primary_key
    (c : Server) (conn : Conn) (w : BlindTokenRequestWrapper)
    (req : BlindTokenRequest)
    (hread : (readRequest conn).2 = none ∨
      ((readRequest conn).2 = some ReadErr.timeout ∧
        0 < (readRequest conn).1.length))
    (hw : decodeWrapper ((readRequest conn).1) = some w)
    (hr : decodeRequest w.request = some req)
    (ht : req.type = ISSUE) :
    ((handle c conn).2 =
      match handleIssue req (c.keys.headD 0) c.G c.H c.maxTokens with
      | .error e =>
          ⟨["CounterConnections", "CounterIssueTotal", "CounterIssueError"],
            [], some e⟩
      | .ok resp =>
          ⟨["CounterConnections", "CounterIssueTotal"],
            [encodeIssueResponse resp], none⟩) ∧
    ∀ ks' : List Nat, ks'.headD 0 = c.keys.headD 0 →
      (handle { c with keys := ks' } conn).2 = (handle c conn).2 := by
  have h1 : (handle c conn).2 =
      match handleIssue req (c.keys.headD 0) c.G c.H c.maxTokens with
      | .error e =>
          ⟨["CounterConnections", "CounterIssueTotal", "CounterIssueError"],
            [], some e⟩
      | .ok resp =>
          ⟨["CounterConnections", "CounterIssueTotal"],
            [encodeIssueResponse resp], none⟩ := by
    rw [handle_read_ok c conn hread, processRequest_issue c _ w req hw hr ht]
    cases handleIssue req (c.keys.headD 0) c.G c.H c.maxTokens <;> rfl
  refine ⟨h1, ?_⟩
  intro ks' hk
  rw [handle_read_ok { c with keys := ks' } conn hread,
    processRequest_issue { c with keys := ks' } _ w req hw hr ht, h1]
  have hA : handleIssue req (({ c with keys := ks' } : Server).keys.headD 0)
      ({ c with keys := ks' } : Server).G ({ c with keys := ks' } : Server).H
      ({ c with keys := ks' } : Server).maxTokens =
      handleIssue req (c.keys.headD 0) c.G c.H c.maxTokens := by
    dsimp only
    rw [hk]
  rw [hA]
  cases handleIssue req (c.keys.headD 0) c.G c.H c.maxTokens <;> rfl

theorem issue_uses_primary_key_witness :
    (handle { DefaultServer with keys := [7] }
        ⟨encodeWrapper ⟨encodeRequest ⟨"Issue", [[3]]⟩, "h", "p"⟩,
          ConnState.eof⟩).2 =
      (handle { DefaultServer with keys := [7, 5] }
        ⟨encodeWrapper ⟨encodeRequest ⟨"Issue", [[3]]⟩, "h", "p"⟩,
          ConnState.eof⟩).2 := by
  have h := issue_uses_primary_key
    { DefaultServer with keys := [7, 5] }
    ⟨encodeWrapper ⟨encodeRequest ⟨"Issue", [[3]]⟩, "h", "p"⟩, ConnState.eof⟩
    ⟨encodeRequest ⟨"Issue", [[3]]⟩, "h", "p"⟩
    ⟨"Issue", [[3]]⟩
    (Or.inl (by decide)) (by decide) (by decide) rfl
  exact h.2 [7] (by decide)

/-- C3: the redemption verifier receives the complete configured key sequence
in its original order, so a token whose tag was computed (the way a
legitimate client computes it) under the key at any index of the
configuration still redeems successfully. -/
theorem redeem_tries_all_configured_keys
    (c : Server) (conn : Conn) (w : BlindTokenRequestWrapper)
    (req : BlindTokenRequest) (t tag : Bytes) (j k : Nat)
    (hread : (readRequest conn).2 = none ∨
      ((readRequest conn).2 = some ReadErr.timeout ∧
        0 < (readRequest conn).1.length))
    (hw : decodeWrapper ((readRequest conn).1) = some w)
    (hr : decodeRequest w.request = some req)
    (ht : req.type = REDEEM)
    (hc : req.contents = [t, tag])
    (hj : c.keys[j]? = some k)
    (htag : tag = clientTag k t w.host w.path) :
    (handle c conn).2.result = none ∧
    (handle c conn).2.written = [strBytes "success"] := by
  have hmem : k ∈ c.keys := by
    obtain ⟨hjlt, rfl⟩ := List.getElem?_eq_some_iff.mp hj
    exact List.getElem_mem hjlt
  have hany : (c.keys.any fun k' =>
      tag = mac (deriveKey t (scalarMult k' (hashToCurve t))) w.host w.path)
      = true := by
    rw [List.any_eq_true]
    refine ⟨k, hmem, ?_⟩
    rw [htag]
    exact decide_eq_true rfl
  have hred : handleRedeem req w.host w.path c.keys = .ok () := by
    simp only [handleRedeem, hc]
    rw [if_pos hany]
  have hout := processRequest_redeem c ((readRequest conn).1) w req hw hr ht
  rw [hred] at hout
  rw [handle_read_ok c conn hread]
  constructor <;> simp [hout]

theorem redeem_tries_all_configured_keys_witness :
    (handle { DefaultServer with keys := [2, 7] }
        ⟨encodeWrapper ⟨encodeRequest ⟨"Redeem", [[3], [557]]⟩, "h", "p"⟩,
          ConnState.eof⟩).2.result = none := by
  have h := redeem_tries_all_configured_keys
    { DefaultServer with keys := [2, 7] }
    ⟨encodeWrapper ⟨encodeRequest ⟨"Redeem", [[3], [557]]⟩, "h", "p"⟩,
      ConnState.eof⟩
    ⟨encodeRequest ⟨"Redeem", [[3], [557]]⟩, "h", "p"⟩
    ⟨"Redeem", [[3], [557]]⟩
    [3] [557] 1 7
    (Or.inl (by decide)) (by decide) (by decide) rfl rfl (by decide) (by decide)
  exact h.1

/-- C7: whenever the redemption handler fails, the server writes the error's
literal text as the response payload on the connection, and the invoking
layer accepts only the single canonical `success` payload — every failure
text is read as a verification failure. -/
theorem redeem_failure_text_written
    (c : Server) (conn : Conn) (w : BlindTokenRequestWrapper)
    (req : BlindTokenRequest) (e : Err)
    (hread : (readRequest conn).2 = none ∨
      ((readRequest conn).2 = some ReadErr.timeout ∧
        0 < (readRequest conn).1.length))
    (hw : decodeWrapper ((readRequest conn).1) = some w)
    (hr : decodeRequest w.request = some req)
    (ht : req.type = REDEEM)
    (he : handleRedeem req w.host w.path c.keys = .error e) :
    (handle c conn).2.written = [strBytes (errMsg e)] ∧
    callerAccepts (strBytes (errMsg e)) = false ∧
    (∀ p : Bytes, callerAccepts p = true ↔ p = strBytes "success") := by
  refine ⟨?_, ?_, ?_⟩
  · have hout := processRequest_redeem c ((readRequest conn).1) w req hw hr ht
    rw [he] at hout
    rw [handle_read_ok c conn hread]
    simp [hout]
  · rcases handleRedeem_error_cases _ _ _ _ _ he with h | h <;> subst h <;> decide
  · intro p
    simp [callerAccepts]

theorem redeem_failure_text_written_witness :
    (handle { DefaultServer with keys := [7] }
        ⟨encodeWrapper ⟨encodeRequest ⟨"Redeem", [[3], [0]]⟩, "h", "p"⟩,
          ConnState.eof⟩).2.written =
      [strBytes (errMsg Err.verifyFailed)] ∧
    callerAccepts (strBytes (errMsg Err.verifyFailed)) = false := by
  have h := redeem_failure_text_written
    { DefaultServer with keys := [7] }
    ⟨encodeWrapper ⟨encodeRequest ⟨"Redeem", [[3], [0]]⟩, "h", "p"⟩,
      ConnState.eof⟩
    ⟨encodeRequest ⟨"Redeem", [[3], [0]]⟩, "h", "p"⟩
    ⟨"Redeem", [[3], [0]]⟩
    Err.verifyFailed
    (Or.inl (by decide)) (by decide) (by decide) rfl (by rfl)
  exact ⟨h.1, h.2.1⟩

theorem retrieveCommPoints_ok (gB hB : Bytes) (k : Nat) (g h : Point)
    (hr : retrieveCommPoints gB hB k = .ok (g, h)) :
    h = scalarMult k g := by
  unfold retrieveCommPoints at hr
  split at hr
  · rename_i g' h'
    split at hr
    · rename_i hcond
      injection hr with h1
      injection h1 with hg hh
      subst hg
      subst hh
      exact hcond
    · exact absurd hr (by simp)
  · exact absurd hr (by simp)

theorem startServer_served (srv0 : Server) (w : World) (evs : List AcceptEvent)
    (srv : Server) (log : List (Option Err))
    (h : startServer srv0 w evs = .served srv log) :
    ∃ g h2, srv.G = some g ∧ srv.H = some h2 ∧
      h2 = scalarMult (srv.keys.headD 0) g := by
  simp only [startServer] at h
  split at h
  · exact absurd h (by simp)
  · rename_i srv1 hload
    split at h
    · exact absurd h (by simp)
    · rename_i gB hB hcomm
      split at h
      · exact absurd h (by simp)
      · rename_i g h2 hretr
        split at h
        · exact absurd h (by simp)
        · rename_i log2 hlisten
          injection h with hsrv hlog
          subst hsrv
          refine ⟨g, h2, rfl, rfl, ?_⟩
          have hk := retrieveCommPoints_ok gB hB (srv1.keys.headD 0) g h2 hretr
          simpa using hk

/-- C4: after loading the keys and the commitment points, startup verifies
`H = k₀·G` before any traffic is served: every run of `main` that reaches the
accept loop carries commitment points satisfying `H = k₀·G`; a decodable
commitment failing the check makes startup abort fatally with
`CommitmentMismatch`; a missing or unparsable commitment file aborts fatally
as well; and a plain (no config file) command line with both paths set hands
control to exactly this startup sequence. -/
theorem startup_commitment_check_before_serving :
    (∀ (fl : Flags) (w : World) (evs : List AcceptEvent) (srv : Server)
        (log : List (Option Err)),
      main fl w evs = .served srv log →
      ∃ g h, srv.G = some g ∧ srv.H = some h ∧
        h = scalarMult (srv.keys.headD 0) g) ∧
    (∀ (srv0 : Server) (w : World) (evs : List AcceptEvent)
        (curves : List String) (ks : List Nat) (gB hB : Bytes)
        (g h : Point),
      srv0.keyFilePath ≠ "" → srv0.commFilePath ≠ "" →
      w.keyFiles srv0.keyFilePath = some (curves, ks) → ks ≠ [] →
      w.commFiles srv0.commFilePath = some (gB, hB) →
      decodePoint gB = some g → decodePoint hB = some h →
      h ≠ scalarMult (ks.headD 0) g →
      startServer srv0 w evs = .fatal .commitmentMismatch) ∧
    (∀ (srv0 : Server) (w : World) (evs : List AcceptEvent)
        (curves : List String) (ks : List Nat),
      srv0.keyFilePath ≠ "" → srv0.commFilePath ≠ "" →
      w.keyFiles srv0.keyFilePath = some (curves, ks) → ks ≠ [] →
      w.commFiles srv0.commFilePath = none →
      startServer srv0 w evs = .fatal .commParseError) ∧
    (∀ (fl : Flags) (w : World) (evs : List AcceptEvent),
      fl.configFile = "" → fl.keyPath ≠ "" → fl.commPath ≠ "" →
      main fl w evs = startServer (flagServer fl) w evs) := by
  refine ⟨?_, ?_, ?_, ?_⟩
  · intro fl w evs srv log h
    simp only [main] at h
    split at h
    · split at h
      · exact absurd h (by simp)
      · exact startServer_served _ w evs srv log h
    · split at h
      · exact absurd h (by simp)
      · exact startServer_served _ w evs srv log h
  · intro srv0 w evs curves ks gB hB g h h1 h2 hkf hks hcomm hg hh hne
    have hempty : ks.isEmpty = false := by simpa using hks
    have hlk : loadKeys srv0 w = ({ srv0 with keys := ks }, none) := by
      simp [loadKeys, parseKeyFile, h1, h2, hkf, hempty]
    have hpc : parseCommitmentFile w ({ srv0 with keys := ks } : Server).commFilePath
        = .ok (gB, hB) := by
      simp [parseCommitmentFile, hcomm]
    have hrc : retrieveCommPoints gB hB
        (({ srv0 with keys := ks } : Server).keys.headD 0)
        = .error .commitmentMismatch := by
      simp only [retrieveCommPoints, hg, hh]
      rw [if_neg (by simpa using hne)]
    simp only [startServer, hlk, hpc, hrc]
  · intro srv0 w evs curves ks h1 h2 hkf hks hcomm
    have hempty : ks.isEmpty = false := by simpa using hks
    have hlk : loadKeys srv0 w = ({ srv0 with keys := ks }, none) := by
      simp [loadKeys, parseKeyFile, h1, h2, hkf, hempty]
    have hpc : parseCommitmentFile w ({ srv0 with keys := ks } : Server).commFilePath
        = .error .commParseError := by
      simp [parseCommitmentFile, hcomm]
    simp only [startServer, hlk, hpc]
  · intro fl w evs hcf hkp hcp
    simp only [main]
    rw [if_neg (by simp [hcf])]
    rw [if_neg (by simp [hkp, hcp])]

theorem startup_commitment_check_before_serving_witness :
    ∃ g h,
      ({ flagServer goodFlags with
          keys := [7, 5], G := some (1 : Point), H := some (7 : Point) } :
        Server).G = some g ∧
      ({ flagServer goodFlags with
          keys := [7, 5], G := some (1 : Point), H := some (7 : Point) } :
        Server).H = some h ∧
      h = scalarMult
        (({ flagServer goodFlags with
            keys := [7, 5], G := some (1 : Point), H := some (7 : Point) } :
          Server).keys.headD 0) g :=
  startup_commitment_check_before_serving.1 goodFlags goodWorld []
    { flagServer goodFlags with
      keys := [7, 5], G := some 1, H := some 7 } []
    (by decide)

theorem hC5ts : oversizedPreimage.length = 20464 :=
  List.length_replicate 20464 0

theorem encField_length (b : Bytes) : (encField b).length = b.length + 1 := rfl

theorem encodeRequest_two (ty : String) (t g : Bytes) :
    encodeRequest ⟨ty, [t, g]⟩ =
      encStr ty ++ 2 :: (encField t ++ (encField g ++ [])) := rfl

theorem encodeWrapper_expand (r : Bytes) (hs ps : String) :
    encodeWrapper ⟨r, hs, ps⟩ = encField r ++ encStr hs ++ encStr ps := rfl

theorem handleRedeem_pair (t tag : Bytes) (host path : String)
    (keys : List Nat)
    (h : (keys.any fun k =>
      decide (tag = mac (deriveKey t (scalarMult k (hashToCurve t)))
        host path)) = true) :
    handleRedeem ⟨REDEEM, [t, tag]⟩ host path keys = .ok () := by
  simp only [handleRedeem]
  rw [if_pos h]

theorem hC5req : (encodeRequest oversizedRequest).length = 20475 := by
  have h7 : (encStr "Redeem").length = 7 := by decide
  have htg : oversizedTag.length = 1 := by decide
  rw [show oversizedRequest =
      (⟨"Redeem", [oversizedPreimage, oversizedTag]⟩ : BlindTokenRequest) from rfl]
  rw [encodeRequest_two, List.length_append, List.length_cons,
    List.length_append, List.length_append, List.length_nil, encField_length,
    encField_length, hC5ts, h7, htg]

theorem hC5wl : (encodeWrapper oversizedWrapper).length = maxRequestSize := by
  have hh : (encStr "h").length = 2 := by decide
  have hp : (encStr "p").length = 2 := by decide
  rw [show oversizedWrapper =
      (⟨encodeRequest oversizedRequest, "h", "p"⟩ : BlindTokenRequestWrapper) from rfl]
  rw [encodeWrapper_expand, List.length_append, List.length_append,
    encField_length, hC5req, hh, hp]
  rfl

theorem hC5read : readRequest oversizedConn = (encodeWrapper oversizedWrapper, none) := by
  have hpend : oversizedConn.pending = encodeWrapper oversizedWrapper ++ [0] := rfl
  unfold readRequest
  rw [if_pos (by
    rw [hpend, List.length_append, hC5wl]
    exact Nat.le_add_right _ _)]
  rw [hpend, ← hC5wl, List.take_left]

theorem hC5sum : oversizedPreimage.sum = 0 := by
  show (List.replicate 20464 0).sum = 0
  rw [List.sum_replicate, smul_eq_mul, Nat.mul_zero]

theorem hC5macv : mac (deriveKey oversizedPreimage
    (scalarMult 7 (hashToCurve oversizedPreimage))) "h" "p" = [544] := by
  have hhc : hashToCurve oversizedPreimage = 0 := by
    rw [hashToCurve, hC5sum]
    exact Nat.cast_zero
  have hsm : scalarMult 7 (hashToCurve oversizedPreimage) = 0 := by
    rw [hhc]
    exact mul_zero _
  have hdk : deriveKey oversizedPreimage
      (scalarMult 7 (hashToCurve oversizedPreimage)) = [0, 0] := by
    rw [hsm]
    show [oversizedPreimage.sum, (0 : Point).val] = [0, 0]
    rw [hC5sum, ZMod.val_zero]
  rw [hdk]
  decide

theorem hC5cond : (([7] : List Nat).any fun k =>
    decide (oversizedTag = mac (deriveKey oversizedPreimage
      (scalarMult k (hashToCurve oversizedPreimage))) "h" "p")) = true := by
  rw [List.any_cons, List.any_nil, Bool.or_false, hC5macv]
  exact decide_eq_true rfl

theorem hC5red : handleRedeem oversizedRequest "h" "p" [7] = .ok () := by
  rw [show oversizedRequest =
      (⟨REDEEM, [oversizedPreimage, oversizedTag]⟩ : BlindTokenRequest) from rfl]
  exact handleRedeem_pair oversizedPreimage oversizedTag "h" "p" [7] hC5cond

/-- C5: the 20 KB cap does not reject oversized input — it silently truncates.
A message one symbol longer than `maxRequestSize` whose first `maxRequestSize`
symbols form a complete valid redemption request is fully processed (through
to a successful redemption), and no path of `handle` ever returns the declared
`ErrRequestTooLarge`. -/
theorem oversized_request_fully_processed :
    (encodeWrapper oversizedWrapper ++ [0]).length = maxRequestSize + 1 ∧
    (handle oversizedServer oversizedConn).2 =
      ⟨["CounterConnections", "CounterRedeemTotal"],
        [strBytes "success"], none⟩ ∧
    ∀ (c : Server) (conn : Conn),
      (handle c conn).2.result ≠ some Err.requestTooLarge := by
  refine ⟨by rw [List.length_append, hC5wl]; rfl, ?_,
    fun c conn => handle_result_ne_tooLarge c conn⟩
  rw [handle_read_ok oversizedServer oversizedConn (Or.inl (by rw [hC5read]))]
  have hbuf : (readRequest oversizedConn).1 = encodeWrapper oversizedWrapper := by
    rw [hC5read]
  rw [hbuf]
  rw [processRequest_redeem oversizedServer _ oversizedWrapper oversizedRequest
    (decodeWrapper_encodeWrapper oversizedWrapper)
    (decodeRequest_encodeRequest oversizedRequest) rfl]
  have heq : handleRedeem oversizedRequest oversizedWrapper.host
      oversizedWrapper.path oversizedServer.keys = .ok () := hC5red
  rw [heq]

theorem oversized_request_fully_processed_witness :
    (encodeWrapper oversizedWrapper ++ [0]).length = maxRequestSize + 1 :=
  oversized_request_fully_processed.1

/-- C8: supplying a config file can never override the defaults:
`loadConfigFile` hands `json.Unmarshal` the `Server` by value instead of by
pointer, so it always returns the default-valued `Server` together with
`InvalidUnmarshalError` — even for a well-formed file that a pointer target
would decode — and `main` run with `-config` therefore exits fatally. -/
theorem config_file_never_loads :
    loadConfigFile configWorld "conf.json" =
      (DefaultServer, some Err.invalidUnmarshal) ∧
    jsonUnmarshalServer configBytes (.ptr DefaultServer) =
      ({ DefaultServer with listenPort := 9000 }, none) ∧
    main configFlags configWorld [] = .fatal Err.invalidUnmarshal ∧
    ∀ (w : World) (path : String) (data : Bytes),
      w.rawFiles path = some data →
      loadConfigFile w path = (DefaultServer, some Err.invalidUnmarshal) := by
  refine ⟨by decide, by decide, by decide, ?_⟩
  intro w path data h
  simp only [loadConfigFile, h]
  rfl

theorem config_file_never_loads_witness :
    loadConfigFile configWorld "conf.json" =
      (DefaultServer, some Err.invalidUnmarshal) :=
  config_file_never_loads.2.2.2 configWorld "conf.json" configBytes (by decide)

end BTD
